import Mathlib

/-!
# Verification of the WelcomeBot command-line tool (`main.py`)

A shallow embedding of the single source file `main.py`.  The program keeps a
directory gallery `db/` of reference face images, adds images to it from a
local path or an HTTP(S) URL, and queries the external DeepFace recognition
library.

Modelling decisions, all derived from the source:

* The filesystem is a record `FS` of existing directories, regular files
  (path, content) and temporary files (path, content).  Temporary files are
  kept in a separate field because `tempfile.NamedTemporaryFile` creates them
  in the system temporary directory, never inside the gallery tree.
* Paths are strings; `pathJoin` follows `pathlib`'s rule that joining with an
  absolute right operand discards the left operand.  `pathSuffix`, `pathName`
  and `parentDir` follow `pathlib.PurePath.suffix` / `.name` / `.parent.name`
  (last dot of the final component, with the final component obtained after
  stripping trailing slashes).
* `get_image_path` is Python's `@contextmanager` generator.  It is embedded as
  a function that takes the body of the `with` statement (which may finish
  normally or raise) and produces the overall outcome `RunResult`, replaying
  contextlib's single-yield protocol: an exception raised by the body is
  thrown into the generator at the `yield`; in the URL branch that exception
  is caught by the generator's `except Exception` clause, which prints a
  download error and yields a second time, upon which contextlib raises
  `RuntimeError` -- and the `os.unlink` cleanup line is skipped.
* The external collaborators are part of the environment `Env`: one HTTP
  fetch result (`requests.get` + `raise_for_status`), the random stem of the
  temporary file name, and one DeepFace outcome.  A DeepFace result row
  carries the matched identity path and its distance already rendered as a
  string (the `:.4f` float formatting itself is outside the model).
* Side effects are recorded as a trace of `Event`s: console prints, the
  network fetch, temporary-file creation/deletion, and the DeepFace call.
-/

/-! ## String and path helpers (pathlib semantics) -/

/-- `leadsWith pre cs` is true when `pre` is an initial segment of `cs`. -/
def leadsWith : List Char → List Char → Bool
  | [], _ => true
  | _ :: _, [] => false
  | a :: as, b :: bs => a == b && leadsWith as bs

/-- Split a character list at the last occurrence of `sep`:
`some (before, after)` when `sep` occurs, `none` otherwise. -/
def splitOnLastChar (sep : Char) : List Char → Option (List Char × List Char)
  | [] => none
  | c :: cs =>
    match splitOnLastChar sep cs with
    | some (pre, post) => some (c :: pre, post)
    | none => if c = sep then some ([], cs) else none

/-- The final path component of `s`, after stripping trailing slashes --
`pathlib.PurePath(s).name` as a character list. -/
def lastNameOf (s : String) : List Char :=
  match splitOnLastChar '/' ((s.data.reverse.dropWhile (fun c => c == '/')).reverse) with
  | some (_, post) => post
  | none => (s.data.reverse.dropWhile (fun c => c == '/')).reverse

/-- `pathlib.PurePath(s).name`. -/
def pathName (s : String) : String :=
  String.mk (lastNameOf s)

/-- `pathlib.PurePath(s).suffix`: the part of the final component from its
last dot onward, provided that dot is neither the first nor the last
character of the component; `""` otherwise. -/
def pathSuffix (s : String) : String :=
  match splitOnLastChar '.' (lastNameOf s) with
  | some (pre, post) => if pre ≠ [] ∧ post ≠ [] then String.mk ('.' :: post) else ""
  | none => ""

/-- The parent directory of a path: everything before the last slash
(`""` stands for the current working directory). -/
def parentDir (p : String) : String :=
  match splitOnLastChar '/' p.data with
  | some (pre, _) => String.mk pre
  | none => ""

/-- `pathlib` path join `a / b`: an absolute right operand replaces the
accumulated path. -/
def pathJoin (a b : String) : String :=
  if b.data.head? = some '/' then b else a ++ "/" ++ b

/-- Split a character list into its slash-separated components
(components may be empty). -/
def splitOnSlash : List Char → List (List Char)
  | [] => [[]]
  | c :: cs =>
    if c = '/' then
      [] :: splitOnSlash cs
    else
      match splitOnSlash cs with
      | [] => [[c]]
      | g :: gs => (c :: g) :: gs

/-! ## Filesystem model -/

/-- The filesystem state: existing directories, regular files with contents,
and temporary files with contents (the latter live under the system temporary
directory, outside the gallery tree). -/
structure FS where
  dirs : List String
  files : List (String × String)
  temps : List (String × String)
  deriving DecidableEq

/-- First-match association lookup (a later write shadows an earlier one,
matching the overwrite behaviour of `shutil.copy2`). -/
def getFile : List (String × String) → String → Option String
  | [], _ => none
  | (q, c) :: rest, p => if q = p then some c else getFile rest p

/-- Remove the first entry with the given path (`os.unlink`). -/
def removeFirst : List (String × String) → String → List (String × String)
  | [], _ => []
  | (q, c) :: rest, p => if q = p then rest else (q, c) :: removeFirst rest p

/-- `os.path.exists`: true for regular files, temporary files and
directories. -/
def pathExists (fs : FS) (p : String) : Bool :=
  (getFile fs.files p).isSome || (getFile fs.temps p).isSome || fs.dirs.contains p

/-- Content of a readable file (regular files first, then temporaries). -/
def readFileContent (fs : FS) (p : String) : Option String :=
  match getFile fs.files p with
  | some c => some c
  | none => getFile fs.temps p

/-- `Path(p).mkdir(exist_ok=True)`: succeeds when the directory already
exists, creates it when its parent exists, raises `FileExistsError` when a
regular file occupies the path and `FileNotFoundError` when the parent is
missing. -/
def mkdirExistOk (fs : FS) (p : String) : Except String FS :=
  if fs.dirs.contains p then Except.ok fs
  else if (getFile fs.files p).isSome then Except.error ("FileExistsError: " ++ p)
  else if (parentDir p == "") || fs.dirs.contains (parentDir p) then
    Except.ok { fs with dirs := p :: fs.dirs }
  else Except.error ("FileNotFoundError: " ++ p)

/-- `shutil.copy2 src dst`: requires a readable source and an existing
destination parent directory; silently overwrites an existing destination
file (the new entry shadows the old one under `getFile`). -/
def copy2 (fs : FS) (src dst : String) : Except String FS :=
  match readFileContent fs src with
  | none => Except.error ("FileNotFoundError: " ++ src)
  | some c =>
    if fs.dirs.contains dst then Except.error ("IsADirectoryError: " ++ dst)
    else if (parentDir dst == "") || fs.dirs.contains (parentDir dst) then
      Except.ok { fs with files := (dst, c) :: fs.files }
    else Except.error ("FileNotFoundError: " ++ dst)

/-- `os.listdir d`: names of the directories and regular files directly
inside `d` (temporary files live outside the gallery tree). -/
def listdir (fs : FS) (d : String) : List String :=
  (fs.dirs.filter (fun q => parentDir q == d)).map pathName
    ++ (fs.files.filter (fun e => parentDir e.1 == d)).map (fun e => pathName e.1)

/-- `Path(d).glob('*')` as a name list: all directory entries (pathlib's
glob, unlike shell globbing, matches dot-prefixed names too), so it agrees
with `listdir`. -/
def globStar (fs : FS) (d : String) : List String :=
  listdir fs d

/-! ## Events, environment, outcomes -/

/-- Observable side effects of one program run. -/
inductive Event where
  | printed (msg : String)
  | fetched (url : String)
  | tempCreated (path : String)
  | tempDeleted (path : String)
  | deepfaceCalled (img : String) (db : String)
  deriving DecidableEq

/-- Outcome of the external `DeepFace.find` collaborator: either an internal
exception (for example, no face detected) or a list of result tables, each
table a list of rows `(identity path, distance rendered as a string)`. -/
inductive DFOutcome where
  | raises (e : String)
  | returns (tables : List (List (String × String)))

/-- External environment of a single logical operation: the result of the
(at most one) HTTP fetch, the random stem chosen by
`tempfile.NamedTemporaryFile` (the suffix is appended to it), and the DeepFace
outcome. -/
structure Env where
  fetch : Except String String
  tmpStem : String
  deepface : DFOutcome

/-- Result of the body of the `with` statement: normal completion or a raised
exception, together with the events printed and the filesystem produced. -/
inductive BodyStep where
  | normal (tr : List Event) (fs : FS)
  | raised (e : String) (tr : List Event) (fs : FS)

/-- Result of a whole operation: normal completion, or an exception escaping
to the top level. -/
inductive RunResult where
  | ok (tr : List Event) (fs : FS)
  | exn (e : String) (tr : List Event) (fs : FS)
  deriving DecidableEq

def RunResult.trace : RunResult → List Event
  | .ok tr _ => tr
  | .exn _ tr _ => tr

def RunResult.finalFS : RunResult → FS
  | .ok _ fs => fs
  | .exn _ _ fs => fs

def RunResult.isOk : RunResult → Bool
  | .ok _ _ => true
  | .exn _ _ _ => false

/-! ## The program (`main.py`) -/

/-- `DB_PATH = "db"`. -/
def DB_PATH : String := "db"

/-- `image_path.startswith("http://") or image_path.startswith("https://")`. -/
def isUrl (s : String) : Bool :=
  leadsWith "http://".data s.data || leadsWith "https://".data s.data

/-- `suffix = Path(image_path).suffix or ".jpg"`. -/
def urlSuffix (image_path : String) : String :=
  if pathSuffix image_path = "" then ".jpg" else pathSuffix image_path

/-- `setup_db`: `Path(DB_PATH).mkdir(exist_ok=True)`. -/
def setup_db (fs : FS) : Except String FS :=
  mkdirExistOk fs DB_PATH

/-- The `with get_image_path(image_path) as local_path:` block.  `body` is the
indented suite, receiving the yielded value.  The URL branch downloads into a
fresh temporary file `env.tmpStem ++ urlSuffix image_path` and deletes it
after a normal body; when the body raises, contextlib throws the exception
into the generator at `yield tmp_path`, the generator's `except Exception`
clause prints `Error downloading image: ...` and yields `None` a second time,
so contextlib raises `RuntimeError` and `os.unlink(tmp_path)` never runs.
When the fetch itself fails the generator prints the download error and
yields `None`.  A local path is yielded unchanged, with no handler around the
yield, so a body exception propagates. -/
def get_image_path (image_path : String) (env : Env) (fs : FS)
    (body : Option String → FS → BodyStep) : RunResult :=
  if isUrl image_path then
    match env.fetch with
    | Except.error e =>
      match body none fs with
      | .normal btr fs2 =>
        .ok ([.printed ("Downloading image from " ++ image_path ++ "..."),
              .fetched image_path,
              .printed ("Error downloading image: " ++ e)] ++ btr) fs2
      | .raised e2 btr fs2 =>
        .exn e2 ([.printed ("Downloading image from " ++ image_path ++ "..."),
                  .fetched image_path,
                  .printed ("Error downloading image: " ++ e)] ++ btr) fs2
    | Except.ok content =>
      match body (some (env.tmpStem ++ urlSuffix image_path))
          { fs with temps := (env.tmpStem ++ urlSuffix image_path, content) :: fs.temps } with
      | .normal btr fs2 =>
        .ok ([.printed ("Downloading image from " ++ image_path ++ "..."),
              .fetched image_path,
              .tempCreated (env.tmpStem ++ urlSuffix image_path),
              .printed "Download complete."]
            ++ btr ++ [.tempDeleted (env.tmpStem ++ urlSuffix image_path)])
          { fs2 with temps := removeFirst fs2.temps (env.tmpStem ++ urlSuffix image_path) }
      | .raised e btr fs2 =>
        .exn "RuntimeError: generator did not stop after throw()"
          ([.printed ("Downloading image from " ++ image_path ++ "..."),
            .fetched image_path,
            .tempCreated (env.tmpStem ++ urlSuffix image_path),
            .printed "Download complete."]
           ++ btr ++ [.printed ("Error downloading image: " ++ e)]) fs2
  else
    match body (some image_path) fs with
    | .normal btr fs2 => .ok btr fs2
    | .raised e btr fs2 => .exn e btr fs2

/-- The message printed by `find_face` on an empty gallery (the apostrophes
around `add` are written via their character code). -/
def emptyDbMsg : String :=
  "Error: Database is empty. Add faces first using "
    ++ String.mk [Char.ofNat 39] ++ "add" ++ String.mk [Char.ofNat 39] ++ " command."

/-- `person_dir / image_name` where `person_dir = Path(DB_PATH) / name`: the
identity name is spliced verbatim into the destination path. -/
def addDestPath (name image_name : String) : String :=
  pathJoin (pathJoin DB_PATH name) image_name

/-- Body of the `with` block of `add_face`. -/
def addBody (name image_path : String) (lp : Option String) (fs : FS) : BodyStep :=
  match lp with
  | none => .normal [] fs
  | some local_path =>
    if pathExists fs local_path then
      match mkdirExistOk fs (pathJoin DB_PATH name) with
      | Except.error e => .raised e [] fs
      | Except.ok fs1 =>
        let image_name :=
          if isUrl image_path then
            name ++ "_" ++ toString ((globStar fs1 (pathJoin DB_PATH name)).length + 1)
              ++ pathSuffix local_path
          else
            pathName image_path
        match copy2 fs1 local_path (addDestPath name image_name) with
        | Except.error e => .raised e [] fs1
        | Except.ok fs2 =>
          .normal [.printed ("Added " ++ image_name ++ " to database for " ++ name)] fs2
    else
      .normal [.printed ("Error: Image not found at " ++ local_path)] fs

/-- `add_face(name, image_path)`. -/
def add_face (name image_path : String) (env : Env) (fs : FS) : RunResult :=
  get_image_path image_path env fs (addBody name image_path)

/-- Body of the `with` block of `find_face`. -/
def findBody (env : Env) (lp : Option String) (fs : FS) : BodyStep :=
  match lp with
  | none => .normal [] fs
  | some local_path =>
    if pathExists fs local_path then
      if fs.dirs.contains DB_PATH then
        if (listdir fs DB_PATH).isEmpty then
          .normal [.printed emptyDbMsg] fs
        else
          match env.deepface with
          | DFOutcome.raises e =>
            .normal [.printed "Searching for face...",
                     .deepfaceCalled local_path DB_PATH,
                     .printed ("Error during search: " ++ e)] fs
          | DFOutcome.returns tables =>
            match tables with
            | [] =>
              .normal [.printed "Searching for face...",
                       .deepfaceCalled local_path DB_PATH,
                       .printed "No matches found in database."] fs
            | t0 :: _ =>
              if t0.isEmpty then
                .normal [.printed "Searching for face...",
                         .deepfaceCalled local_path DB_PATH,
                         .printed "No matches found in database."] fs
              else
                .normal ([.printed "Searching for face...",
                          .deepfaceCalled local_path DB_PATH,
                          .printed ("\nFound " ++ toString t0.length ++ " match(es):")]
                         ++ t0.map (fun row =>
                              .printed ("  - " ++ pathName (parentDir row.1)
                                        ++ " (distance: " ++ row.2 ++ ")"))) fs
      else
        .raised ("FileNotFoundError: " ++ DB_PATH) [] fs
    else
      .normal [.printed ("Error: Image not found at " ++ local_path)] fs

/-- `find_face(image_path)`. -/
def find_face (image_path : String) (env : Env) (fs : FS) : RunResult :=
  get_image_path image_path env fs (findBody env)

/-- The three usage lines printed when fewer than two `sys.argv` entries are
present. -/
def usageTrace : List Event :=
  [.printed "Usage:",
   .printed "  Add face:  python main.py add <name> <image_path>",
   .printed "  Find face: python main.py find <image_path>"]

namespace WelcomeBot

/-- `main()`: runs `setup_db` first, then dispatches on `sys.argv`
(`argv` here is the full `sys.argv`, program name included). -/
def main (argv : List String) (env : Env) (fs : FS) : RunResult :=
  match setup_db fs with
  | Except.error e => .exn e [] fs
  | Except.ok fs1 =>
    match argv with
    | _ :: command :: rest =>
      if command = "add" then
        match rest with
        | [name, image_path] => add_face name image_path env fs1
        | _ => .ok [.printed "Usage: python main.py add <name> <image_path>"] fs1
      else if command = "find" then
        match rest with
        | [image_path] => find_face image_path env fs1
        | _ => .ok [.printed "Usage: python main.py find <image_path>"] fs1
      else
        .ok [.printed ("Unknown command: " ++ command),
             .printed "Available commands: add, find"] fs1
    | _ => .ok usageTrace fs1

end WelcomeBot

/-! ## Decidable observations on traces and states -/

/-- Whether the trace contains a `printed` event with exactly message `m`. -/
def mentionsPrint (tr : List Event) (m : String) : Bool :=
  tr.any fun e =>
    match e with
    | .printed m2 => m2 == m
    | _ => false

/-- Whether the external recognition collaborator was invoked. -/
def callsCollaborator (tr : List Event) : Bool :=
  tr.any fun e =>
    match e with
    | .deepfaceCalled _ _ => true
    | _ => false

/-- Whether any temporary file was deleted during the run. -/
def deletesTemp (tr : List Event) : Bool :=
  tr.any fun e =>
    match e with
    | .tempDeleted _ => true
    | _ => false

/-- The gallery-layout invariant for one stored image: its path consists of
exactly the gallery root, one directory component equal to the identity name,
and a file name. -/
def galleryInvariantHolds (identityName destPath : String) : Bool :=
  match splitOnSlash destPath.data with
  | [a, b, _c] => a == DB_PATH.data && b == identityName.data
  | _ => false

/-! ## Concrete inputs used by witnesses and counterexamples -/

/-- An environment whose collaborators are never reached. -/
def envIdle : Env :=
  { fetch := Except.error "unused", tmpStem := "/tmp/tmpidle", deepface := DFOutcome.returns [] }

/-- A completely empty filesystem. -/
def fsBlank : FS :=
  { dirs := [], files := [], temps := [] }

/-- A filesystem holding only the (empty) gallery root. -/
def fsRootOnly : FS :=
  { dirs := ["db"], files := [], temps := [] }

/-- An environment whose download succeeds (used to exercise the URL branch). -/
def envLeak : Env :=
  { fetch := Except.ok "IMG", tmpStem := "/tmp/tmpleak", deepface := DFOutcome.returns [] }

/-- An environment whose download fails with an HTTP 404. -/
def envDown : Env :=
  { fetch := Except.error "404 Client Error: Not Found", tmpStem := "/tmp/tmpdl",
    deepface := DFOutcome.returns [] }

/-- An environment whose recognition collaborator raises internally. -/
def envRaise : Env :=
  { fetch := Except.error "unused", tmpStem := "/tmp/tmpr",
    deepface := DFOutcome.raises "Face could not be detected." }

/-- An environment whose download succeeds with content `"C"`. -/
def envGet : Env :=
  { fetch := Except.ok "C", tmpStem := "/tmp/tmpx", deepface := DFOutcome.returns [] }

/-- A gallery whose only entry for `alice` is a hidden file. -/
def fsHidden : FS :=
  { dirs := ["db", "db/alice"], files := [("db/alice/.hidden", "h")], temps := [] }

/-- A gallery whose only entry for `alice` is already named `alice_2.jpg`,
the very name the next remote add will synthesize. -/
def fsCollide : FS :=
  { dirs := ["db", "db/alice"], files := [("db/alice/alice_2.jpg", "OLD")], temps := [] }

/-- A filesystem with one local photo outside the gallery. -/
def fsLocalPhoto : FS :=
  { dirs := ["db"], files := [("photos/me.jpg", "P")], temps := [] }

/-- A populated gallery plus a local query image. -/
def fsGallery : FS :=
  { dirs := ["db", "db/alice"], files := [("db/alice/a.jpg", "A"), ("q.jpg", "Q")], temps := [] }

/-- An empty gallery root plus a local query image. -/
def fsQueryOnly : FS :=
  { dirs := ["db"], files := [("q.jpg", "Q")], temps := [] }

/-! ## Helper lemmas about strings and paths -/

theorem str_data_append (a b : String) : (a ++ b).data = a.data ++ b.data := rfl

theorem str_mk_data (a : String) : String.mk a.data = a := by
  cases a
  rfl

theorem splitOnLastChar_eq_none {sep : Char} {cs : List Char} (h : sep ∉ cs) :
    splitOnLastChar sep cs = none := by
  induction cs with
  | nil => rfl
  | cons c cs ih =>
    have h1 : sep ∉ cs := fun m => h (List.mem_cons_of_mem _ m)
    have h2 : ¬ c = sep := by
      rintro rfl
      exact h (List.mem_cons_self _ _)
    simp [splitOnLastChar, ih h1, h2]

theorem not_mem_of_splitOnLastChar_none {sep : Char} {cs : List Char}
    (h : splitOnLastChar sep cs = none) : sep ∉ cs := by
  induction cs with
  | nil => simp
  | cons c cs ih =>
    rw [splitOnLastChar] at h
    cases hs : splitOnLastChar sep cs with
    | some p => rw [hs] at h; simp at h
    | none =>
      rw [hs] at h
      by_cases hc : c = sep
      · simp [hc] at h
      · rw [if_neg hc] at h
        intro hm
        rcases List.mem_cons.mp hm with h1 | h1
        · exact hc h1.symm
        · exact ih hs h1

theorem splitOnLastChar_append (sep : Char) (pre : List Char) {post : List Char}
    (h : sep ∉ post) : splitOnLastChar sep (pre ++ sep :: post) = some (pre, post) := by
  induction pre with
  | nil => simp [splitOnLastChar, splitOnLastChar_eq_none h]
  | cons c cs ih => simp [splitOnLastChar, ih]

theorem splitOnLastChar_post_not_mem {sep : Char} {cs pre post : List Char}
    (h : splitOnLastChar sep cs = some (pre, post)) : sep ∉ post := by
  induction cs generalizing pre post with
  | nil => simp [splitOnLastChar] at h
  | cons c cs ih =>
    rw [splitOnLastChar] at h
    cases hs : splitOnLastChar sep cs with
    | some p =>
      rw [hs] at h
      obtain ⟨a, b⟩ := p
      simp at h
      exact h.2 ▸ ih hs
    | none =>
      rw [hs] at h
      by_cases hc : c = sep
      · simp [hc] at h
        exact h.2 ▸ not_mem_of_splitOnLastChar_none hs
      · simp [hc] at h

theorem splitOnLastChar_post_subset {sep : Char} {cs pre post : List Char}
    (h : splitOnLastChar sep cs = some (pre, post)) : ∀ x ∈ post, x ∈ cs := by
  induction cs generalizing pre post with
  | nil => simp [splitOnLastChar] at h
  | cons c cs ih =>
    rw [splitOnLastChar] at h
    cases hs : splitOnLastChar sep cs with
    | some p =>
      rw [hs] at h
      obtain ⟨a, b⟩ := p
      simp at h
      intro x hx
      exact List.mem_cons_of_mem _ (ih hs x (h.2 ▸ hx))
    | none =>
      rw [hs] at h
      by_cases hc : c = sep
      · simp [hc] at h
        intro x hx
        exact List.mem_cons_of_mem _ (h.2 ▸ hx)
      · simp [hc] at h

theorem lastNameOf_no_slash (s : String) : '/' ∉ lastNameOf s := by
  unfold lastNameOf
  cases hs : splitOnLastChar '/' ((s.data.reverse.dropWhile (fun c => c == '/')).reverse) with
  | some p =>
    obtain ⟨a, b⟩ := p
    exact splitOnLastChar_post_not_mem hs
  | none => exact not_mem_of_splitOnLastChar_none hs

theorem lastNameOf_of_no_slash {s : String} (h : ∀ c ∈ s.data, c ≠ '/') :
    lastNameOf s = s.data := by
  have hdrop : s.data.reverse.dropWhile (fun c => c == '/') = s.data.reverse := by
    cases hr : s.data.reverse with
    | nil => simp
    | cons a t =>
      have ha : a ∈ s.data := by
        rw [← List.mem_reverse, hr]
        exact List.mem_cons_self _ _
      have hf : (a == '/') = false := beq_eq_false_iff_ne.mpr (h a ha)
      simp [List.dropWhile, hf]
  unfold lastNameOf
  rw [hdrop, List.reverse_reverse,
    splitOnLastChar_eq_none (fun m => h '/' m rfl)]

theorem pathSuffix_shape (s : String) :
    pathSuffix s = "" ∨
      ∃ rest, (pathSuffix s).data = '.' :: rest ∧ rest ≠ [] ∧ '.' ∉ rest ∧ '/' ∉ rest := by
  unfold pathSuffix
  cases hs : splitOnLastChar '.' (lastNameOf s) with
  | none => exact Or.inl rfl
  | some p =>
    obtain ⟨pre, post⟩ := p
    by_cases hc : pre ≠ [] ∧ post ≠ []
    · right
      refine ⟨post, ?_, hc.2, splitOnLastChar_post_not_mem hs, ?_⟩
      · simp [hc]
      · intro hm
        exact lastNameOf_no_slash s (splitOnLastChar_post_subset hs '/' hm)
    · left
      simp [hc]

theorem urlSuffix_shape (s : String) :
    ∃ rest, (urlSuffix s).data = '.' :: rest ∧ rest ≠ [] ∧ '.' ∉ rest ∧ '/' ∉ rest := by
  unfold urlSuffix
  rcases pathSuffix_shape s with h | ⟨rest, h1, h2, h3, h4⟩
  · rw [if_pos h]
    exact ⟨['j', 'p', 'g'], by decide, by decide, by decide, by decide⟩
  · have hne : pathSuffix s ≠ "" := by
      intro he
      rw [he] at h1
      simp at h1
    rw [if_neg hne]
    exact ⟨rest, h1, h2, h3, h4⟩

theorem urlSuffix_no_slash (s : String) : ∀ c ∈ (urlSuffix s).data, c ≠ '/' := by
  obtain ⟨rest, h1, _h2, _h3, h4⟩ := urlSuffix_shape s
  intro c hc
  rw [h1] at hc
  rcases List.mem_cons.mp hc with rfl | hc
  · decide
  · intro e
    exact h4 (e ▸ hc)

theorem splitOnLastChar_append_no_sep {sep : Char} {tail : List Char} (xs : List Char)
    (h : sep ∉ tail) :
    splitOnLastChar sep (xs ++ tail)
      = match splitOnLastChar sep xs with
        | some (p, q) => some (p, q ++ tail)
        | none => none := by
  induction xs with
  | nil => simp [splitOnLastChar, splitOnLastChar_eq_none h]
  | cons x xs ih =>
    rw [List.cons_append, splitOnLastChar, ih, splitOnLastChar]
    cases hs : splitOnLastChar sep xs with
    | some p =>
      obtain ⟨p1, q1⟩ := p
      simp
    | none => by_cases hx : x = sep <;> simp [hx]

/-- The suffix of a freshly created temporary file name `stem ++ sfx` is
`sfx`, provided the stem contains no dot, its final path component is
nonempty, and `sfx` looks like a proper extension. -/
theorem pathSuffix_stem_append {stem sfx : String}
    (hdot : ∀ c ∈ stem.data, c ≠ '.')
    (hsplit : ∃ a b, stem.data = a ++ b ∧ b ≠ [] ∧ '/' ∉ b)
    (hshape : ∃ rest, sfx.data = '.' :: rest ∧ rest ≠ [] ∧ '.' ∉ rest ∧ '/' ∉ rest) :
    pathSuffix (stem ++ sfx) = sfx := by
  obtain ⟨a, b, hab, hbne, hbs⟩ := hsplit
  obtain ⟨rest, hd, hne, hdotr, hslr⟩ := hshape
  have htailns : '/' ∉ '.' :: rest := by
    intro hm
    rcases List.mem_cons.mp hm with he | hm
    · exact absurd he (by decide)
    · exact hslr hm
  have hdata : (stem ++ sfx).data = stem.data ++ '.' :: rest := by
    rw [str_data_append, hd]
  have hrev : (stem.data ++ '.' :: rest).reverse
      = rest.reverse ++ '.' :: stem.data.reverse := by
    rw [List.reverse_append, List.reverse_cons]
    simp
  have htrim : (stem ++ sfx).data.reverse.dropWhile (fun c => c == '/')
      = (stem ++ sfx).data.reverse := by
    rw [hdata, hrev]
    cases hr : rest.reverse with
    | nil => exact absurd (by simpa using congrArg List.reverse hr) hne
    | cons r0 rr =>
      have hr0 : r0 ∈ rest := by
        rw [← List.mem_reverse, hr]
        exact List.mem_cons_self _ _
      have hr0ne : (r0 == '/') = false := beq_eq_false_iff_ne.mpr (fun e => hslr (e ▸ hr0))
      simp [List.dropWhile, hr0ne]
  have hname : lastNameOf (stem ++ sfx)
      = match splitOnLastChar '/' ((stem ++ sfx).data) with
        | some (_, post) => post
        | none => (stem ++ sfx).data := by
    unfold lastNameOf
    rw [htrim, List.reverse_reverse]
  have hfull : splitOnLastChar '/' ((stem ++ sfx).data)
      = match splitOnLastChar '/' stem.data with
        | some (p, q) => some (p, q ++ '.' :: rest)
        | none => none := by
    rw [hdata]
    exact splitOnLastChar_append_no_sep stem.data htailns
  cases hsa : splitOnLastChar '/' stem.data with
  | none =>
    have hone : lastNameOf (stem ++ sfx) = stem.data ++ '.' :: rest := by
      rw [hname, hfull, hsa, hdata]
    have hstemne : stem.data ≠ [] := by
      rw [hab]
      simp [hbne]
    unfold pathSuffix
    rw [hone, splitOnLastChar_append '.' stem.data hdotr]
    show (if stem.data ≠ [] ∧ rest ≠ [] then String.mk ('.' :: rest) else "") = sfx
    rw [if_pos ⟨hstemne, hne⟩]
    exact (congrArg String.mk hd).symm
  | some pq =>
    obtain ⟨p, q⟩ := pq
    have hone : lastNameOf (stem ++ sfx) = q ++ '.' :: rest := by
      rw [hname, hfull, hsa]
    have hqsub : ∀ x ∈ q, x ∈ stem.data := splitOnLastChar_post_subset hsa
    have hqdot : '.' ∉ q := fun hm => hdot '.' (hqsub '.' hm) rfl
    have hqne : q ≠ [] := by
      have hsplit2 := splitOnLastChar_append_no_sep a hbs
      rw [← hab, hsa] at hsplit2
      cases hsb : splitOnLastChar '/' a with
      | none => rw [hsb] at hsplit2; simp at hsplit2
      | some pq2 =>
        obtain ⟨p2, q2⟩ := pq2
        rw [hsb] at hsplit2
        simp at hsplit2
        rw [hsplit2.2]
        simp [hbne]
    unfold pathSuffix
    rw [hone, splitOnLastChar_append '.' q hdotr]
    show (if q ≠ [] ∧ rest ≠ [] then String.mk ('.' :: rest) else "") = sfx
    rw [if_pos ⟨hqne, hne⟩]
    exact (congrArg String.mk hd).symm

theorem parentDir_join (a b : String) (hb : ∀ c ∈ b.data, c ≠ '/') :
    parentDir (a ++ "/" ++ b) = a := by
  have hslash : ("/" : String).data = ['/'] := by decide
  have hdata : (a ++ "/" ++ b).data = a.data ++ '/' :: b.data := by
    rw [str_data_append, str_data_append, hslash]
    simp
  unfold parentDir
  rw [hdata, splitOnLastChar_append '/' a.data (fun m => hb '/' m rfl)]

theorem pathJoin_eq_append {b : String} (a : String) (hb : ∀ c ∈ b.data, c ≠ '/') :
    pathJoin a b = a ++ "/" ++ b := by
  unfold pathJoin
  cases hd : b.data with
  | nil => simp
  | cons c t =>
    have hc : c ≠ '/' := hb c (by rw [hd]; exact List.mem_cons_self _ _)
    simp [hc]

theorem join_ne_left (a b : String) : a ++ "/" ++ b ≠ a := by
  intro h
  have h2 : (a ++ "/" ++ b).data.length = a.data.length := by
    rw [h]
  have h3 : ("/" : String).data = ['/'] := by decide
  rw [str_data_append, str_data_append, h3] at h2
  simp only [List.length_append, List.length_cons, List.length_nil] at h2
  omega

theorem join_ne_empty (a b : String) : a ++ "/" ++ b ≠ "" := by
  intro h
  have h2 : (a ++ "/" ++ b).data.length = ("" : String).data.length := by
    rw [h]
  have h3 : ("/" : String).data = ['/'] := by decide
  have h4 : ("" : String).data = [] := by decide
  rw [str_data_append, str_data_append, h3, h4] at h2
  simp only [List.length_append, List.length_cons, List.length_nil] at h2
  omega

theorem digitChar_ne_slash {m : Nat} (hm : m < 10) : Nat.digitChar m ≠ '/' := by
  interval_cases m <;> decide

theorem toDigitsCore_ne_slash (fuel : Nat) :
    ∀ (n : Nat) (acc : List Char), (∀ c ∈ acc, c ≠ '/') →
      ∀ c ∈ Nat.toDigitsCore 10 fuel n acc, c ≠ '/' := by
  induction fuel with
  | zero =>
    intro n acc h c hc
    simpa [Nat.toDigitsCore] using h c hc
  | succ f ih =>
    intro n acc h c hc
    simp only [Nat.toDigitsCore] at hc
    have hacc : ∀ x ∈ Nat.digitChar (n % 10) :: acc, x ≠ '/' := by
      intro x hx
      rcases List.mem_cons.mp hx with rfl | hx
      · exact digitChar_ne_slash (Nat.mod_lt _ (by norm_num))
      · exact h x hx
    split at hc
    · exact hacc c hc
    · exact ih _ _ hacc c hc

theorem natRepr_no_slash (n : Nat) : ∀ c ∈ (toString n).data, c ≠ '/' := by
  intro c hc
  have hc2 : c ∈ Nat.toDigits 10 n := hc
  exact toDigitsCore_ne_slash (n + 1) n [] (by simp) c (by simpa [Nat.toDigits] using hc2)

theorem contains_cons_eq (a b : String) (l : List String) :
    (a :: l).contains b = (b == a || l.contains b) := rfl

theorem listdir_temps (fs : FS) (t : List (String × String)) (d : String) :
    listdir { fs with temps := t } d = listdir fs d := rfl

theorem listdir_cons_dir {q d : String} (fs : FS) (h : parentDir q ≠ d) :
    listdir { fs with dirs := q :: fs.dirs } d = listdir fs d := by
  unfold listdir
  rw [List.filter_cons_of_neg]
  simp [h]

theorem imageName_no_slash {name : String} (k : Nat) (sfxd : String)
    (h3 : ∀ c ∈ name.data, c ≠ '/')
    (hs : ∀ c ∈ sfxd.data, c ≠ '/') :
    ∀ c ∈ (name ++ "_" ++ toString k ++ sfxd).data, c ≠ '/' := by
  intro c hc
  rw [str_data_append, str_data_append, str_data_append] at hc
  have hu : ("_" : String).data = ['_'] := by decide
  rcases List.mem_append.mp hc with hc | hc
  · rcases List.mem_append.mp hc with hc | hc
    · rcases List.mem_append.mp hc with hc | hc
      · exact h3 c hc
      · rw [hu] at hc
        have : c = '_' := by simpa using hc
        subst this
        decide
    · exact natRepr_no_slash k c hc
  · exact hs c hc

theorem splitOnSlash_ne_nil (cs : List Char) : splitOnSlash cs ≠ [] := by
  induction cs with
  | nil => simp [splitOnSlash]
  | cons c cs ih =>
    rw [splitOnSlash]
    by_cases hc : c = '/'
    · simp [hc]
    · rw [if_neg hc]
      cases hs : splitOnSlash cs with
      | nil => exact absurd hs ih
      | cons g gs => simp

theorem splitOnSlash_no_slash {cs : List Char} : ∀ g ∈ splitOnSlash cs, '/' ∉ g := by
  induction cs with
  | nil =>
    intro g hg
    simp [splitOnSlash] at hg
    simp [hg]
  | cons c cs ih =>
    intro g hg
    rw [splitOnSlash] at hg
    by_cases hc : c = '/'
    · rw [if_pos hc] at hg
      rcases List.mem_cons.mp hg with rfl | hg
      · simp
      · exact ih g hg
    · rw [if_neg hc] at hg
      cases hs : splitOnSlash cs with
      | nil => exact absurd hs (splitOnSlash_ne_nil cs)
      | cons g0 gs =>
        rw [hs] at hg
        rcases List.mem_cons.mp hg with rfl | hg
        · intro hm
          rcases List.mem_cons.mp hm with he | hm
          · exact hc he.symm
          · exact ih g0 (hs ▸ List.mem_cons_self _ _) hm
        · exact ih g (hs ▸ List.mem_cons_of_mem _ hg)

/-! ## Claim theorems -/

/-- Claim C1 (code bug): the spec requires the downloaded temporary file to be
deleted on every exit path of the resolver, including when the consuming
operation raises after receiving the yielded path.  The code violates this:
when the body of the `with` block raises (here: `add "a/b" <url>` on a fresh
gallery, whose `mkdir` fails because `db/a` does not exist), the exception is
thrown into the generator, caught by its `except` clause, and the generator
yields a second time -- `os.unlink` is skipped, the temporary file is left
behind, and contextlib turns the whole operation into a `RuntimeError`. -/
theorem add_face_consumer_exception_leaks_tempfile :
    add_face "a/b" "https://example.com/face.jpg" envLeak fsRootOnly
      = RunResult.exn "RuntimeError: generator did not stop after throw()"
          [.printed "Downloading image from https://example.com/face.jpg...",
           .fetched "https://example.com/face.jpg",
           .tempCreated "/tmp/tmpleak.jpg",
           .printed "Download complete.",
           .printed "Error downloading image: FileNotFoundError: db/a/b"]
          { dirs := ["db"], files := [], temps := [("/tmp/tmpleak.jpg", "IMG")] }
      ∧ deletesTemp (add_face "a/b" "https://example.com/face.jpg" envLeak fsRootOnly).trace
          = false
      ∧ (add_face "a/b" "https://example.com/face.jpg" envLeak fsRootOnly).finalFS.temps
          = [("/tmp/tmpleak.jpg", "IMG")] := by
  refine ⟨?_, ?_, ?_⟩ <;> decide

/-- Claim C2, counterexample: invoking the tool with zero command-line
arguments on a filesystem without the gallery root prints the usage text but
also creates the `db` directory (since `setup_db` runs before the argument
check), so the original claim "performs no filesystem mutation" is false. -/
theorem main_no_args_creates_db_dir :
    WelcomeBot.main ["main.py"] envIdle fsBlank
        = RunResult.ok usageTrace { dirs := ["db"], files := [], temps := [] }
      ∧ fsBlank.dirs = [] := by
  refine ⟨?_, ?_⟩ <;> decide

/-- Claim C2 (amended): invoking the tool with zero command-line arguments
prints the usage text and performs no filesystem mutation beyond `setup_db`
idempotently creating the gallery root if it is absent; in particular, when
the root already exists the filesystem is unchanged, and files and temporary
files are never touched. -/
theorem main_no_args_prints_usage_only_root_created
    (argv : List String) (env : Env) (fs : FS)
    (h1 : argv.length < 2)
    (h2 : getFile fs.files DB_PATH = none) :
    WelcomeBot.main argv env fs = RunResult.ok usageTrace
      (if fs.dirs.contains DB_PATH then fs else { fs with dirs := DB_PATH :: fs.dirs }) := by
  have hp : parentDir DB_PATH = "" := by decide
  have hsetup : setup_db fs = Except.ok
      (if fs.dirs.contains DB_PATH then fs else { fs with dirs := DB_PATH :: fs.dirs }) := by
    unfold setup_db mkdirExistOk
    cases hd : fs.dirs.contains DB_PATH
    · rw [h2]
      simp [hp]
    · simp
  cases argv with
  | nil =>
    unfold WelcomeBot.main
    rw [hsetup]
  | cons a t =>
    cases t with
    | nil =>
      unfold WelcomeBot.main
      rw [hsetup]
    | cons b t2 =>
      exfalso
      simp [List.length_cons] at h1
      omega

/-- Claim C4: adding with a local source path that does not exist reports an
error, aborts the add with no copy performed, and leaves the filesystem
entirely unchanged -- in particular no directory beyond the gallery root (not
even the identity's subdirectory) is created. -/
theorem add_missing_source_aborts (name src : String) (env : Env) (fs : FS)
    (h1 : isUrl src = false) (h2 : pathExists fs src = false) :
    add_face name src env fs
      = RunResult.ok [.printed ("Error: Image not found at " ++ src)] fs := by
  simp [add_face, get_image_path, addBody, h1, h2]

/-- Claim C4, witness. -/
theorem add_missing_source_aborts_witness :
    isUrl "nope.jpg" = false
      ∧ pathExists fsRootOnly "nope.jpg" = false
      ∧ add_face "carol" "nope.jpg" envIdle fsRootOnly
          = RunResult.ok [.printed ("Error: Image not found at " ++ "nope.jpg")] fsRootOnly :=
  ⟨by decide, by decide,
    add_missing_source_aborts "carol" "nope.jpg" envIdle fsRootOnly (by decide) (by decide)⟩

/-- Claim C5: when the fetch of a remote URL fails (connection error, timeout
or non-2xx status such as HTTP 404), a download error is reported, the
resolver yields the `None` sentinel instead of propagating the exception, the
caller short-circuits (both for `add` and for `find`), and the filesystem is
unchanged: no gallery file or directory is created and no temporary file is
left behind. -/
theorem url_fetch_failure_reports_and_no_mutation
    (name url e : String) (env : Env) (fs : FS)
    (h1 : isUrl url = true) (h2 : env.fetch = Except.error e) :
    add_face name url env fs = RunResult.ok
        [.printed ("Downloading image from " ++ url ++ "..."), .fetched url,
         .printed ("Error downloading image: " ++ e)] fs
      ∧ find_face url env fs = RunResult.ok
        [.printed ("Downloading image from " ++ url ++ "..."), .fetched url,
         .printed ("Error downloading image: " ++ e)] fs := by
  constructor <;> simp [add_face, find_face, get_image_path, addBody, findBody, h1, h2]

/-- Claim C5, witness. -/
theorem url_fetch_failure_reports_and_no_mutation_witness :
    isUrl "https://example.com/a.jpg" = true
      ∧ envDown.fetch = Except.error "404 Client Error: Not Found"
      ∧ add_face "dave" "https://example.com/a.jpg" envDown fsRootOnly = RunResult.ok
          [.printed ("Downloading image from " ++ "https://example.com/a.jpg" ++ "..."),
           .fetched "https://example.com/a.jpg",
           .printed ("Error downloading image: " ++ "404 Client Error: Not Found")] fsRootOnly
      ∧ find_face "https://example.com/a.jpg" envDown fsRootOnly = RunResult.ok
          [.printed ("Downloading image from " ++ "https://example.com/a.jpg" ++ "..."),
           .fetched "https://example.com/a.jpg",
           .printed ("Error downloading image: " ++ "404 Client Error: Not Found")] fsRootOnly := by
  have h := url_fetch_failure_reports_and_no_mutation "dave" "https://example.com/a.jpg"
    "404 Client Error: Not Found" envDown fsRootOnly (by decide) rfl
  exact ⟨by decide, rfl, h.1, h.2⟩

/-- Claim C10: `add` splices the identity name verbatim into the destination
path `db/<name>/<image_name>`; consequently, for any name containing a path
separator, the stored image's path can never consist of the gallery root plus
a single identity directory equal to the name plus a file name -- the
layout invariant is violated. -/
theorem add_name_separator_breaks_invariant
    (name image_name : String) (h : '/' ∈ name.data) :
    galleryInvariantHolds name (addDestPath name image_name) = false := by
  unfold galleryInvariantHolds
  split
  · next a b c heq =>
    cases hb : b == name.data
    · simp
    · exfalso
      have hbe : b = name.data := eq_of_beq hb
      have hmem : b ∈ splitOnSlash (addDestPath name image_name).data := by
        rw [heq]
        simp
      exact splitOnSlash_no_slash b hmem (hbe ▸ h)
  · rfl

/-- Claim C10, witness. -/
theorem add_name_separator_breaks_invariant_witness :
    '/' ∈ ("a/b" : String).data
      ∧ galleryInvariantHolds "a/b" (addDestPath "a/b" "a/b_1.jpg") = false :=
  ⟨by decide, add_name_separator_breaks_invariant "a/b" "a/b_1.jpg" (by decide)⟩

/-- Claim C2 (amended), witness. -/
theorem main_no_args_prints_usage_only_root_created_witness :
    (["main.py"] : List String).length < 2
      ∧ getFile fsBlank.files DB_PATH = none
      ∧ WelcomeBot.main ["main.py"] envIdle fsBlank = RunResult.ok usageTrace
          (if fsBlank.dirs.contains DB_PATH then fsBlank
           else { fsBlank with dirs := DB_PATH :: fsBlank.dirs }) :=
  ⟨by decide, rfl,
    main_no_args_prints_usage_only_root_created ["main.py"] envIdle fsBlank (by decide) rfl⟩

/-- Claim C3, counterexample: a `find` invocation on an empty gallery whose
query image is missing prints the image-not-found error and returns before
the empty-database check, so "always reports an empty-database error" is
false as universally stated (the collaborator is still never invoked). -/
theorem find_empty_db_missing_image_no_empty_report :
    (listdir fsRootOnly DB_PATH).isEmpty = true
      ∧ find_face "missing.jpg" envIdle fsRootOnly
          = RunResult.ok [.printed "Error: Image not found at missing.jpg"] fsRootOnly
      ∧ mentionsPrint (find_face "missing.jpg" envIdle fsRootOnly).trace emptyDbMsg = false
      ∧ callsCollaborator (find_face "missing.jpg" envIdle fsRootOnly).trace = false := by
  refine ⟨?_, ?_, ?_, ?_⟩ <;> decide

/-- Claim C3 (amended): for every `find` invocation with an empty gallery
root the external recognition collaborator is never invoked; and whenever the
query image also resolves successfully -- an existing local file, or a URL
whose download succeeds -- the empty-database error is reported. -/
theorem find_empty_db_no_collaborator_call
    (input p u c : String) (env : Env) (fs : FS)
    (hdb : fs.dirs.contains DB_PATH = true)
    (hempty : (listdir fs DB_PATH).isEmpty = true)
    (hp1 : isUrl p = false) (hp2 : pathExists fs p = true)
    (hu1 : isUrl u = true) (hu2 : env.fetch = Except.ok c) :
    callsCollaborator (find_face input env fs).trace = false
      ∧ mentionsPrint (find_face p env fs).trace emptyDbMsg = true
      ∧ mentionsPrint (find_face u env fs).trace emptyDbMsg = true := by
  have hdbm : DB_PATH ∈ fs.dirs := by simpa using hdb
  have hfindp : find_face p env fs = RunResult.ok [.printed emptyDbMsg] fs := by
    simp [find_face, get_image_path, findBody, hp1, hp2, hdbm, hempty]
  have htmp : ∀ s : String, pathExists { fs with temps := (s, c) :: fs.temps } s = true := by
    intro s
    simp [pathExists, getFile]
  have hfindu : ∀ v : String, isUrl v = true → find_face v env fs = RunResult.ok
      [.printed ("Downloading image from " ++ v ++ "..."), .fetched v,
       .tempCreated (env.tmpStem ++ urlSuffix v), .printed "Download complete.",
       .printed emptyDbMsg, .tempDeleted (env.tmpStem ++ urlSuffix v)] fs := by
    intro v hv
    simp [find_face, get_image_path, findBody, hv, hu2, htmp, hdbm,
      listdir_temps, hempty, removeFirst]
  refine ⟨?_, ?_, ?_⟩
  · cases hi : isUrl input
    · cases he : pathExists fs input
      · simp [find_face, get_image_path, findBody, hi, he, callsCollaborator,
          RunResult.trace]
      · simp [find_face, get_image_path, findBody, hi, he, hdbm, hempty, callsCollaborator,
          RunResult.trace]
    · rw [hfindu input hi]
      simp [callsCollaborator, RunResult.trace]
  · rw [hfindp]
    simp [mentionsPrint, RunResult.trace]
  · rw [hfindu u hu1]
    simp [mentionsPrint, RunResult.trace]

/-- Claim C3 (amended), witness. -/
theorem find_empty_db_no_collaborator_call_witness :
    fsQueryOnly.dirs.contains DB_PATH = true
      ∧ (listdir fsQueryOnly DB_PATH).isEmpty = true
      ∧ isUrl "q.jpg" = false
      ∧ pathExists fsQueryOnly "q.jpg" = true
      ∧ isUrl "https://example.com/a.jpg" = true
      ∧ envGet.fetch = Except.ok "C"
      ∧ (callsCollaborator (find_face "x.jpg" envGet fsQueryOnly).trace = false
         ∧ mentionsPrint (find_face "q.jpg" envGet fsQueryOnly).trace emptyDbMsg = true
         ∧ mentionsPrint (find_face "https://example.com/a.jpg" envGet fsQueryOnly).trace
             emptyDbMsg = true) :=
  ⟨by decide, by decide, by decide, by decide, by decide, rfl,
    find_empty_db_no_collaborator_call "x.jpg" "q.jpg" "https://example.com/a.jpg" "C"
      envGet fsQueryOnly (by decide) (by decide) (by decide) (by decide) (by decide) rfl⟩

/-- Claim C8: when the recognition collaborator raises internally
(for example, no face detected), the exception is caught, an error-during-search
message is printed, and the operation still completes normally; likewise,
when the collaborator returns no table, or an empty first table, the
no-matches message is printed rather than an error. -/
theorem find_collaborator_failure_nonfatal
    (input e : String) (ts : List (List (String × String))) (env1 env2 : Env) (fs : FS)
    (h1 : isUrl input = false) (h2 : pathExists fs input = true)
    (h3 : fs.dirs.contains DB_PATH = true)
    (h4 : (listdir fs DB_PATH).isEmpty = false)
    (h5 : env1.deepface = DFOutcome.raises e)
    (h6 : env2.deepface = DFOutcome.returns ts)
    (h7 : ts.headD [] = []) :
    (find_face input env1 fs).isOk = true
      ∧ mentionsPrint (find_face input env1 fs).trace ("Error during search: " ++ e) = true
      ∧ (find_face input env2 fs).isOk = true
      ∧ mentionsPrint (find_face input env2 fs).trace "No matches found in database." = true := by
  have h3m : DB_PATH ∈ fs.dirs := by simpa using h3
  have hr1 : find_face input env1 fs = RunResult.ok
      [.printed "Searching for face...", .deepfaceCalled input DB_PATH,
       .printed ("Error during search: " ++ e)] fs := by
    simp [find_face, get_image_path, findBody, h1, h2, h3m, h4, h5]
  have hr2 : find_face input env2 fs = RunResult.ok
      [.printed "Searching for face...", .deepfaceCalled input DB_PATH,
       .printed "No matches found in database."] fs := by
    cases ts with
    | nil => simp [find_face, get_image_path, findBody, h1, h2, h3m, h4, h6]
    | cons t0 rest =>
      have ht0 : t0 = [] := by simpa using h7
      subst ht0
      simp [find_face, get_image_path, findBody, h1, h2, h3m, h4, h6]
  rw [hr1, hr2]
  refine ⟨rfl, ?_, rfl, ?_⟩ <;> simp [mentionsPrint, RunResult.trace]

/-- Claim C8, witness. -/
theorem find_collaborator_failure_nonfatal_witness :
    isUrl "q.jpg" = false
      ∧ pathExists fsGallery "q.jpg" = true
      ∧ fsGallery.dirs.contains DB_PATH = true
      ∧ (listdir fsGallery DB_PATH).isEmpty = false
      ∧ envRaise.deepface = DFOutcome.raises "Face could not be detected."
      ∧ envIdle.deepface = DFOutcome.returns []
      ∧ ([] : List (List (String × String))).headD [] = []
      ∧ ((find_face "q.jpg" envRaise fsGallery).isOk = true
         ∧ mentionsPrint (find_face "q.jpg" envRaise fsGallery).trace
             ("Error during search: " ++ "Face could not be detected.") = true
         ∧ (find_face "q.jpg" envIdle fsGallery).isOk = true
         ∧ mentionsPrint (find_face "q.jpg" envIdle fsGallery).trace
             "No matches found in database." = true) :=
  ⟨by decide, by decide, by decide, by decide, rfl, rfl, rfl,
    find_collaborator_failure_nonfatal "q.jpg" "Face could not be detected." []
      envRaise envIdle fsGallery (by decide) (by decide) (by decide) (by decide) rfl rfl rfl⟩

/-- Claim C9: a `find` with a URL input and an empty gallery still performs
the network fetch before the empty-database check runs: the temporary file is
created, the empty-database error is then reported, and the temporary file is
deleted on this (successful-download) path, leaving the filesystem as it
was. -/
theorem find_url_empty_db_fetch_still_performed
    (url c : String) (env : Env) (fs : FS)
    (h1 : isUrl url = true) (h2 : env.fetch = Except.ok c)
    (h3 : fs.dirs.contains DB_PATH = true)
    (h4 : (listdir fs DB_PATH).isEmpty = true) :
    find_face url env fs = RunResult.ok
      [.printed ("Downloading image from " ++ url ++ "..."), .fetched url,
       .tempCreated (env.tmpStem ++ urlSuffix url), .printed "Download complete.",
       .printed emptyDbMsg, .tempDeleted (env.tmpStem ++ urlSuffix url)] fs := by
  have h3m : DB_PATH ∈ fs.dirs := by simpa using h3
  have htmp : pathExists { fs with temps := (env.tmpStem ++ urlSuffix url, c) :: fs.temps }
      (env.tmpStem ++ urlSuffix url) = true := by
    simp [pathExists, getFile]
  simp [find_face, get_image_path, findBody, h1, h2, htmp, h3m, listdir_temps, h4, removeFirst]

/-- Claim C9, witness. -/
theorem find_url_empty_db_fetch_still_performed_witness :
    isUrl "https://example.com/a.jpg" = true
      ∧ envGet.fetch = Except.ok "C"
      ∧ fsRootOnly.dirs.contains DB_PATH = true
      ∧ (listdir fsRootOnly DB_PATH).isEmpty = true
      ∧ find_face "https://example.com/a.jpg" envGet fsRootOnly = RunResult.ok
          [.printed ("Downloading image from " ++ "https://example.com/a.jpg" ++ "..."),
           .fetched "https://example.com/a.jpg",
           .tempCreated (envGet.tmpStem ++ urlSuffix "https://example.com/a.jpg"),
           .printed "Download complete.",
           .printed emptyDbMsg,
           .tempDeleted (envGet.tmpStem ++ urlSuffix "https://example.com/a.jpg")] fsRootOnly :=
  ⟨by decide, rfl, by decide, by decide,
    find_url_empty_db_fetch_still_performed "https://example.com/a.jpg" "C" envGet fsRootOnly
      (by decide) rfl (by decide) (by decide)⟩

/-- Claim C7: an `add` with a local file source stores the image under the
source path's base filename, verbatim, inside `db/<name>/`; and because the
new entry simply shadows any existing one at the same destination path, a
second local add with the same base name silently overwrites the first --
the lookup of the destination yields the newly copied content with no
hypothesis that the destination was previously absent. -/
theorem add_local_basename_and_overwrite
    (name src c : String) (env : Env) (fs : FS)
    (h1 : isUrl src = false)
    (h2 : getFile fs.files src = some c)
    (h3 : ∀ ch ∈ name.data, ch ≠ '/')
    (h4 : getFile fs.files (pathJoin DB_PATH name) = none)
    (h5 : DB_PATH ∈ fs.dirs)
    (h6 : pathJoin (pathJoin DB_PATH name) (pathName src) ∉ fs.dirs) :
    add_face name src env fs = RunResult.ok
        [.printed ("Added " ++ pathName src ++ " to database for " ++ name)]
        { dirs := if pathJoin DB_PATH name ∈ fs.dirs then fs.dirs
                  else pathJoin DB_PATH name :: fs.dirs,
          files := (pathJoin (pathJoin DB_PATH name) (pathName src), c) :: fs.files,
          temps := fs.temps }
      ∧ getFile ((add_face name src env fs).finalFS).files
          (pathJoin (pathJoin DB_PATH name) (pathName src)) = some c := by
  have hname_ns : ∀ ch ∈ (pathName src).data, ch ≠ '/' := fun ch hm he =>
    lastNameOf_no_slash src (he ▸ hm)
  have hpj : pathJoin DB_PATH name = DB_PATH ++ "/" ++ name := pathJoin_eq_append DB_PATH h3
  have hpj2 : pathJoin (pathJoin DB_PATH name) (pathName src)
      = pathJoin DB_PATH name ++ "/" ++ pathName src := pathJoin_eq_append _ hname_ns
  have hpar : parentDir (pathJoin DB_PATH name) = DB_PATH := by
    rw [hpj]
    exact parentDir_join _ _ h3
  have hpar2 : parentDir (pathJoin (pathJoin DB_PATH name) (pathName src))
      = pathJoin DB_PATH name := by
    rw [hpj2]
    exact parentDir_join _ _ hname_ns
  have hne0 : pathJoin DB_PATH name ≠ "" := by
    rw [hpj]
    exact join_ne_empty _ _
  have hneq : pathJoin (pathJoin DB_PATH name) (pathName src) ≠ pathJoin DB_PATH name := by
    rw [hpj2]
    exact join_ne_left _ _
  have hdbne : DB_PATH ≠ "" := by decide
  have hex : pathExists fs src = true := by simp [pathExists, h2]
  have hmk : mkdirExistOk fs (pathJoin DB_PATH name) = Except.ok
      (if pathJoin DB_PATH name ∈ fs.dirs then fs
       else { fs with dirs := pathJoin DB_PATH name :: fs.dirs }) := by
    by_cases hpd : pathJoin DB_PATH name ∈ fs.dirs
    · simp [mkdirExistOk, hpd]
    · simp [mkdirExistOk, hpd, h4, hpar, hdbne, h5]
  have hcp : copy2 (if pathJoin DB_PATH name ∈ fs.dirs then fs
        else { fs with dirs := pathJoin DB_PATH name :: fs.dirs }) src
        (pathJoin (pathJoin DB_PATH name) (pathName src))
      = Except.ok { dirs := if pathJoin DB_PATH name ∈ fs.dirs then fs.dirs
                            else pathJoin DB_PATH name :: fs.dirs,
                    files := (pathJoin (pathJoin DB_PATH name) (pathName src), c) :: fs.files,
                    temps := fs.temps } := by
    by_cases hpd : pathJoin DB_PATH name ∈ fs.dirs
    · simp [copy2, readFileContent, h2, hpd, h6, hpar2, hne0]
    · simp [copy2, readFileContent, h2, hpd, h6, hpar2, hne0, hneq]
  constructor
  · simp [add_face, get_image_path, addBody, addDestPath, h1, hex, hmk, hcp]
  · simp [add_face, get_image_path, addBody, addDestPath, h1, hex, hmk, hcp,
      RunResult.finalFS, getFile]

/-- Claim C7, witness (the destination `db/bob/me.jpg` receives the source's
content). -/
theorem add_local_basename_and_overwrite_witness :
    isUrl "photos/me.jpg" = false
      ∧ getFile fsLocalPhoto.files "photos/me.jpg" = some "P"
      ∧ (∀ ch ∈ ("bob" : String).data, ch ≠ '/')
      ∧ getFile fsLocalPhoto.files (pathJoin DB_PATH "bob") = none
      ∧ DB_PATH ∈ fsLocalPhoto.dirs
      ∧ pathJoin (pathJoin DB_PATH "bob") (pathName "photos/me.jpg") ∉ fsLocalPhoto.dirs
      ∧ (add_face "bob" "photos/me.jpg" envIdle fsLocalPhoto = RunResult.ok
           [.printed ("Added " ++ pathName "photos/me.jpg" ++ " to database for " ++ "bob")]
           { dirs := if pathJoin DB_PATH "bob" ∈ fsLocalPhoto.dirs then fsLocalPhoto.dirs
                     else pathJoin DB_PATH "bob" :: fsLocalPhoto.dirs,
             files := (pathJoin (pathJoin DB_PATH "bob") (pathName "photos/me.jpg"), "P")
                        :: fsLocalPhoto.files,
             temps := fsLocalPhoto.temps }
         ∧ getFile ((add_face "bob" "photos/me.jpg" envIdle fsLocalPhoto).finalFS).files
             (pathJoin (pathJoin DB_PATH "bob") (pathName "photos/me.jpg")) = some "P") :=
  ⟨by decide, by decide, by decide, by decide, by decide, by decide,
    add_local_basename_and_overwrite "bob" "photos/me.jpg" "P" envIdle fsLocalPhoto
      (by decide) (by decide) (by decide) (by decide) (by decide) (by decide)⟩

/-- Claim C6, counterexample: the identity directory `db/alice` contains
N = 1 entry, which happens to be named `alice_2.jpg`; the remote add
synthesizes the name `alice_{N+1} = alice_2.jpg` and `shutil.copy2` silently
overwrites the prior file, so "leaves all prior files in that directory
unchanged" is false as universally stated (the destination's lookup changes
from the old content to the downloaded one). -/
theorem add_url_collision_overwrites_prior_file :
    (listdir fsCollide "db/alice").length = 1
      ∧ getFile fsCollide.files "db/alice/alice_2.jpg" = some "OLD"
      ∧ add_face "alice" "https://example.com/a.jpg" envGet fsCollide
          = RunResult.ok
              [.printed "Downloading image from https://example.com/a.jpg...",
               .fetched "https://example.com/a.jpg",
               .tempCreated "/tmp/tmpx.jpg",
               .printed "Download complete.",
               .printed "Added alice_2.jpg to database for alice",
               .tempDeleted "/tmp/tmpx.jpg"]
              { dirs := ["db", "db/alice"],
                files := [("db/alice/alice_2.jpg", "C"), ("db/alice/alice_2.jpg", "OLD")],
                temps := [] }
      ∧ getFile (add_face "alice" "https://example.com/a.jpg" envGet fsCollide).finalFS.files
          "db/alice/alice_2.jpg" = some "C" := by
  refine ⟨?_, ?_, ?_, ?_⟩ <;> decide

/-- Claim C6 (amended): for every identity whose directory currently contains
N entries (as counted by `glob('*')`, which agrees with `os.listdir`), adding
a remote-sourced image downloads it, stores it under `<name>_<N+1><ext>`
where `<ext>` is the suffix inferred from the URL (default `.jpg`), deletes
the temporary file, and leaves every previously stored path other than the
destination bound to its old content -- a prior file already occupying the
destination name is silently overwritten, since the new entry shadows it. -/
theorem add_url_sequence_naming
    (name url content : String) (env : Env) (fs : FS)
    (h1 : isUrl url = true)
    (h2 : env.fetch = Except.ok content)
    (h3 : ∀ ch ∈ name.data, ch ≠ '/')
    (h4a : ∀ ch ∈ env.tmpStem.data, ch ≠ '.')
    (h4b : ∃ a b, env.tmpStem.data = a ++ b ∧ b ≠ [] ∧ '/' ∉ b)
    (h5 : DB_PATH ∈ fs.dirs)
    (h6 : getFile fs.files (pathJoin DB_PATH name) = none)
    (h7 : getFile fs.files (env.tmpStem ++ urlSuffix url) = none)
    (h8 : pathJoin (pathJoin DB_PATH name)
        (name ++ "_" ++ toString ((globStar fs (pathJoin DB_PATH name)).length + 1)
          ++ urlSuffix url) ∉ fs.dirs) :
    add_face name url env fs = RunResult.ok
      [.printed ("Downloading image from " ++ url ++ "..."), .fetched url,
       .tempCreated (env.tmpStem ++ urlSuffix url), .printed "Download complete.",
       .printed ("Added "
           ++ (name ++ "_" ++ toString ((globStar fs (pathJoin DB_PATH name)).length + 1)
               ++ urlSuffix url)
           ++ " to database for " ++ name),
       .tempDeleted (env.tmpStem ++ urlSuffix url)]
      { dirs := if pathJoin DB_PATH name ∈ fs.dirs then fs.dirs
                else pathJoin DB_PATH name :: fs.dirs,
        files := (pathJoin (pathJoin DB_PATH name)
            (name ++ "_" ++ toString ((globStar fs (pathJoin DB_PATH name)).length + 1)
              ++ urlSuffix url), content) :: fs.files,
        temps := fs.temps } := by
  have hsfx : pathSuffix (env.tmpStem ++ urlSuffix url) = urlSuffix url :=
    pathSuffix_stem_append h4a h4b (urlSuffix_shape url)
  have himg : ∀ ch ∈ (name ++ "_"
      ++ toString ((globStar fs (pathJoin DB_PATH name)).length + 1)
      ++ urlSuffix url).data, ch ≠ '/' :=
    imageName_no_slash _ _ h3 (urlSuffix_no_slash url)
  have hpj : pathJoin DB_PATH name = DB_PATH ++ "/" ++ name := pathJoin_eq_append DB_PATH h3
  have hpj2 : pathJoin (pathJoin DB_PATH name)
      (name ++ "_" ++ toString ((globStar fs (pathJoin DB_PATH name)).length + 1)
        ++ urlSuffix url)
      = pathJoin DB_PATH name ++ "/"
        ++ (name ++ "_" ++ toString ((globStar fs (pathJoin DB_PATH name)).length + 1)
            ++ urlSuffix url) := pathJoin_eq_append _ himg
  have hpar : parentDir (pathJoin DB_PATH name) = DB_PATH := by
    rw [hpj]
    exact parentDir_join _ _ h3
  have hpar2 : parentDir (pathJoin (pathJoin DB_PATH name)
      (name ++ "_" ++ toString ((globStar fs (pathJoin DB_PATH name)).length + 1)
        ++ urlSuffix url)) = pathJoin DB_PATH name := by
    rw [hpj2]
    exact parentDir_join _ _ himg
  have hne0 : pathJoin DB_PATH name ≠ "" := by
    rw [hpj]
    exact join_ne_empty _ _
  have hneq : pathJoin (pathJoin DB_PATH name)
      (name ++ "_" ++ toString ((globStar fs (pathJoin DB_PATH name)).length + 1)
        ++ urlSuffix url) ≠ pathJoin DB_PATH name := by
    rw [hpj2]
    exact join_ne_left _ _
  have hparne : parentDir (pathJoin DB_PATH name) ≠ pathJoin DB_PATH name := by
    rw [hpar, hpj]
    exact (join_ne_left _ _).symm
  have hdbne : DB_PATH ≠ "" := by decide
  have hex : pathExists { fs with temps := (env.tmpStem ++ urlSuffix url, content) :: fs.temps }
      (env.tmpStem ++ urlSuffix url) = true := by
    simp [pathExists, getFile]
  have hmk : mkdirExistOk
      { fs with temps := (env.tmpStem ++ urlSuffix url, content) :: fs.temps }
      (pathJoin DB_PATH name)
      = Except.ok (if pathJoin DB_PATH name ∈ fs.dirs then
          { fs with temps := (env.tmpStem ++ urlSuffix url, content) :: fs.temps }
        else { fs with
                 dirs := pathJoin DB_PATH name :: fs.dirs,
                 temps := (env.tmpStem ++ urlSuffix url, content) :: fs.temps }) := by
    by_cases hpd : pathJoin DB_PATH name ∈ fs.dirs
    · simp [mkdirExistOk, hpd]
    · simp [mkdirExistOk, hpd, h6, hpar, hdbne, h5]
  have hglob : globStar (if pathJoin DB_PATH name ∈ fs.dirs then
        { fs with temps := (env.tmpStem ++ urlSuffix url, content) :: fs.temps }
      else { fs with
               dirs := pathJoin DB_PATH name :: fs.dirs,
               temps := (env.tmpStem ++ urlSuffix url, content) :: fs.temps })
      (pathJoin DB_PATH name) = globStar fs (pathJoin DB_PATH name) := by
    by_cases hpd : pathJoin DB_PATH name ∈ fs.dirs
    · simp [hpd]
      rfl
    · simp [hpd]
      unfold globStar
      rw [listdir_cons_dir
        { fs with temps := (env.tmpStem ++ urlSuffix url, content) :: fs.temps } hparne]
      rfl
  have hcp : copy2 (if pathJoin DB_PATH name ∈ fs.dirs then
        { fs with temps := (env.tmpStem ++ urlSuffix url, content) :: fs.temps }
      else { fs with
               dirs := pathJoin DB_PATH name :: fs.dirs,
               temps := (env.tmpStem ++ urlSuffix url, content) :: fs.temps })
      (env.tmpStem ++ urlSuffix url)
      (pathJoin (pathJoin DB_PATH name)
        (name ++ "_" ++ toString ((globStar fs (pathJoin DB_PATH name)).length + 1)
          ++ urlSuffix url))
      = Except.ok { dirs := if pathJoin DB_PATH name ∈ fs.dirs then fs.dirs
                            else pathJoin DB_PATH name :: fs.dirs,
                    files := (pathJoin (pathJoin DB_PATH name)
                        (name ++ "_"
                          ++ toString ((globStar fs (pathJoin DB_PATH name)).length + 1)
                          ++ urlSuffix url), content) :: fs.files,
                    temps := (env.tmpStem ++ urlSuffix url, content) :: fs.temps } := by
    by_cases hpd : pathJoin DB_PATH name ∈ fs.dirs
    · simp [copy2, readFileContent, h7, getFile, hpd, h8, hpar2, hne0]
    · simp [copy2, readFileContent, h7, getFile, hpd, h8, hpar2, hne0, hneq]
  simp [add_face, get_image_path, addBody, addDestPath, h1, h2, hex, hmk, hglob, hsfx,
    hcp, removeFirst]

/-- Claim C6 (amended), witness: on a gallery whose `alice` directory holds
one entry (a dot-prefixed file, which `glob('*')` counts like any other), the
downloaded image is stored as `alice_2.jpg` with extension taken from the
URL, and previously stored paths keep their content. -/
theorem add_url_sequence_naming_witness :
    isUrl "https://example.com/a.jpg" = true
      ∧ envGet.fetch = Except.ok "C"
      ∧ (∀ ch ∈ ("alice" : String).data, ch ≠ '/')
      ∧ (∀ ch ∈ envGet.tmpStem.data, ch ≠ '.')
      ∧ envGet.tmpStem.data = ['/', 't', 'm', 'p', '/'] ++ ['t', 'm', 'p', 'x']
      ∧ (['t', 'm', 'p', 'x'] : List Char) ≠ []
      ∧ '/' ∉ (['t', 'm', 'p', 'x'] : List Char)
      ∧ DB_PATH ∈ fsHidden.dirs
      ∧ getFile fsHidden.files (pathJoin DB_PATH "alice") = none
      ∧ getFile fsHidden.files (envGet.tmpStem ++ urlSuffix "https://example.com/a.jpg") = none
      ∧ pathJoin (pathJoin DB_PATH "alice")
          ("alice" ++ "_"
            ++ toString ((globStar fsHidden (pathJoin DB_PATH "alice")).length + 1)
            ++ urlSuffix "https://example.com/a.jpg") ∉ fsHidden.dirs
      ∧ add_face "alice" "https://example.com/a.jpg" envGet fsHidden = RunResult.ok
          [.printed ("Downloading image from " ++ "https://example.com/a.jpg" ++ "..."),
           .fetched "https://example.com/a.jpg",
           .tempCreated (envGet.tmpStem ++ urlSuffix "https://example.com/a.jpg"),
           .printed "Download complete.",
           .printed ("Added "
               ++ ("alice" ++ "_"
                   ++ toString ((globStar fsHidden (pathJoin DB_PATH "alice")).length + 1)
                   ++ urlSuffix "https://example.com/a.jpg")
               ++ " to database for " ++ "alice"),
           .tempDeleted (envGet.tmpStem ++ urlSuffix "https://example.com/a.jpg")]
          { dirs := if pathJoin DB_PATH "alice" ∈ fsHidden.dirs then fsHidden.dirs
                    else pathJoin DB_PATH "alice" :: fsHidden.dirs,
            files := (pathJoin (pathJoin DB_PATH "alice")
                ("alice" ++ "_"
                  ++ toString ((globStar fsHidden (pathJoin DB_PATH "alice")).length + 1)
                  ++ urlSuffix "https://example.com/a.jpg"), "C") :: fsHidden.files,
            temps := fsHidden.temps } :=
  ⟨by decide, rfl, by decide, by decide, by decide, by decide, by decide, by decide,
    by decide, by decide, by decide,
    add_url_sequence_naming "alice" "https://example.com/a.jpg" "C" envGet fsHidden
      (by decide) rfl (by decide) (by decide)
      ⟨['/', 't', 'm', 'p', '/'], ['t', 'm', 'p', 'x'], by decide, by decide, by decide⟩
      (by decide) (by decide) (by decide) (by decide)⟩
